import Mathlib

/-!
Verification of the peer-to-peer voice-session signaling layer.

The coordinator under study is the `useWebRTC` hook (the revision actually
imported by `VoiceChatContext`, i.e. the one returning `syncUsers`).  Pure
state is modelled explicitly: the mutable refs and React state of the hook
become fields of `CoordState`, the external peer-media-transport primitive
(`RTCPeerConnection`) becomes the record `PC` with its standard
signaling-state transition rules, and every message handler becomes a total
function on `CoordState` that additionally reports the envelopes it sends
(`OutMsg`) or, for teardown, the ordered side effects it performs
(`TeardownEvent`).  Exceptions thrown by the media transport are modelled by
`Except`; the source catches them all, so the handlers are total.
-/

namespace VoiceSignaling

/-! ### Association-list helpers

JavaScript objects keyed by user id (`peersRef.current`, the `peers` state)
are modelled as association lists with string keys. -/

def lookupKey {α : Type} (k : String) : List (String × α) → Option α
  | [] => none
  | (k', v) :: rest => if k' = k then some v else lookupKey k rest

def upsert {α : Type} (k : String) (v : α) : List (String × α) → List (String × α)
  | [] => [(k, v)]
  | (k', v') :: rest => if k' = k then (k, v) :: rest else (k', v') :: upsert k v rest

def eraseKey {α : Type} (k : String) : List (String × α) → List (String × α)
  | [] => []
  | (k', v') :: rest => if k' = k then rest else (k', v') :: eraseKey k rest

theorem lookupKey_upsert_self {α : Type} (k : String) (v : α) (l : List (String × α)) :
    lookupKey k (upsert k v l) = some v := by
  induction l with
  | nil => simp [upsert, lookupKey]
  | cons hd tl ih =>
    by_cases h : hd.1 = k
    · simp [upsert, lookupKey, h]
    · simp [upsert, lookupKey, h, ih]

theorem upsert_upsert {α : Type} (k : String) (v v' : α) (l : List (String × α)) :
    upsert k v' (upsert k v l) = upsert k v' l := by
  induction l with
  | nil => simp [upsert]
  | cons hd tl ih =>
    by_cases h : hd.1 = k
    · simp [upsert, h]
    · simp [upsert, h, ih]

theorem upsert_eq_of_lookup {α : Type} (k : String) (v : α) (l : List (String × α))
    (h : lookupKey k l = some v) : upsert k v l = l := by
  induction l with
  | nil => simp [lookupKey] at h
  | cons hd tl ih =>
    obtain ⟨a, b⟩ := hd
    by_cases hk : a = k
    · subst hk
      simp [lookupKey] at h
      simp [upsert, h]
    · simp [lookupKey, hk] at h
      simp [upsert, hk, ih h]

theorem mem_keys_eraseKey_imp {α : Type} (k x : String) (l : List (String × α))
    (h : x ∈ (eraseKey k l).map Prod.fst) : x ∈ l.map Prod.fst := by
  induction l with
  | nil => simp [eraseKey] at h
  | cons hd tl ih =>
    by_cases hk : hd.1 = k
    · simp only [eraseKey, hk, if_pos] at h
      exact List.mem_cons_of_mem _ h
    · simp only [eraseKey, hk, if_neg, not_false_iff, List.map_cons, List.mem_cons] at h ⊢
      exact h.imp id ih

theorem nodup_keys_eraseKey {α : Type} (k : String) (l : List (String × α))
    (h : (l.map Prod.fst).Nodup) : ((eraseKey k l).map Prod.fst).Nodup := by
  induction l with
  | nil => simp [eraseKey]
  | cons hd tl ih =>
    simp only [List.map_cons, List.nodup_cons] at h
    by_cases hk : hd.1 = k
    · simpa [eraseKey, hk] using h.2
    · simp only [eraseKey, hk, if_neg, not_false_iff, List.map_cons, List.nodup_cons]
      exact ⟨fun hc => h.1 (mem_keys_eraseKey_imp k _ tl hc), ih h.2⟩

theorem not_mem_keys_eraseKey {α : Type} (k : String) (l : List (String × α))
    (h : (l.map Prod.fst).Nodup) : k ∉ ((eraseKey k l).map Prod.fst) := by
  induction l with
  | nil => simp [eraseKey]
  | cons hd tl ih =>
    simp only [List.map_cons, List.nodup_cons] at h
    by_cases hk : hd.1 = k
    · simp only [eraseKey, hk, if_pos]
      exact hk ▸ h.1
    · simp only [eraseKey, hk, if_neg, not_false_iff, List.map_cons, List.mem_cons]
      push_neg
      exact ⟨fun hc => hk hc.symm, ih h.2⟩

theorem upsert_of_not_mem_keys {α : Type} (k : String) (v : α) (l : List (String × α))
    (h : k ∉ l.map Prod.fst) : upsert k v l = l ++ [(k, v)] := by
  induction l with
  | nil => simp [upsert]
  | cons hd tl ih =>
    simp only [List.map_cons, List.mem_cons] at h
    push_neg at h
    simp [upsert, Ne.symm h.1, ih h.2]

/-- The JavaScript `<` on user-id strings: lexicographic comparison,
expressed on the underlying character list (provably the same relation as
`String.instLT`, see `strLt_iff`). -/
def strLt (a b : String) : Bool := a.data < b.data

theorem strLt_iff (a b : String) : strLt a b = true ↔ a < b := by
  rw [String.lt_iff_toList_lt]
  simp [strLt, String.toList]

/-! ### The external peer media transport (`RTCPeerConnection`)

Modelled as a record with the standard signaling-state transition rules.
Fallible operations (`setLocalDescription`, `setRemoteDescription`,
`addIceCandidate`) return `Except`; the source wraps every such call in
`try/catch` (or guards it), so the coordinator functions below are total.
Applied ICE candidates are recorded in arrival order in
`appliedCandidates`, making candidate handling observable. -/

inductive SdpType
  | offer
  | answer
deriving DecidableEq

structure SessionDesc where
  sdpType : SdpType
  sdp : String
deriving DecidableEq

structure IceCandidate where
  candidate : String
deriving DecidableEq

inductive SignalingState
  | stable
  | haveLocalOffer
  | haveRemoteOffer
  | closed
deriving DecidableEq

inductive IceConnState
  | new
  | checking
  | connected
  | completed
  | failed
  | disconnected
  | closed
deriving DecidableEq

structure PC where
  signaling : SignalingState
  iceConn : IceConnState
  localDesc : Option SessionDesc
  remoteDesc : Option SessionDesc
  appliedCandidates : List IceCandidate
deriving DecidableEq

def PC.fresh : PC :=
  { signaling := .stable, iceConn := .new, localDesc := none, remoteDesc := none,
    appliedCandidates := [] }

/-- The SDP blob produced by `createOffer`; its content is opaque to the
coordinator. -/
def PC.createOffer : SessionDesc := ⟨.offer, "sdp"⟩

/-- The SDP blob produced by `createAnswer`; its content is opaque to the
coordinator. -/
def PC.createAnswer : SessionDesc := ⟨.answer, "sdp"⟩

def PC.setLocalDescription (pc : PC) (d : SessionDesc) : Except String PC :=
  match d.sdpType, pc.signaling with
  | .offer, .stable => .ok { pc with localDesc := some d, signaling := .haveLocalOffer }
  | .offer, .haveLocalOffer => .ok { pc with localDesc := some d }
  | .answer, .haveRemoteOffer => .ok { pc with localDesc := some d, signaling := .stable }
  | _, _ => .error "InvalidStateError"

def PC.setRemoteDescription (pc : PC) (d : SessionDesc) : Except String PC :=
  match d.sdpType, pc.signaling with
  | .offer, .stable => .ok { pc with remoteDesc := some d, signaling := .haveRemoteOffer }
  | .offer, .haveRemoteOffer => .ok { pc with remoteDesc := some d }
  | .answer, .haveLocalOffer => .ok { pc with remoteDesc := some d, signaling := .stable }
  | _, _ => .error "InvalidStateError"

def PC.addIceCandidate (pc : PC) (c : IceCandidate) : Except String PC :=
  if pc.signaling = .closed then .error "InvalidStateError"
  else .ok { pc with appliedCandidates := pc.appliedCandidates ++ [c] }

/-! ### Coordinator state (the `useWebRTC` hook)

Fields mirror the hook's refs and React state:
`peersRef` is `peersRef.current` (user id → peer connection), `peers` is the
`peers` state (user id → remote media stream), and the remaining fields are
the hook's other state/refs.  `socket` is `socketRef.current`: `none` when
null, `some b` with `b = true` iff `readyState === OPEN`. -/

structure VoiceUser where
  userId : String
  username : String
deriving DecidableEq

structure MediaStream where
  id : Nat
deriving DecidableEq

structure CoordState where
  userId : String
  peersRef : List (String × PC)
  peers : List (String × MediaStream)
  connectedUsers : List VoiceUser
  isConnected : Bool
  isMuted : Bool
  localStream : Option MediaStream
  socket : Option Bool
  pingInterval : Bool
deriving DecidableEq

/-- An envelope sent through the signaling socket by the coordinator. -/
inductive OutMsg
  | offer (userId targetUserId : String) (sdp : SessionDesc)
  | answer (userId targetUserId : String) (sdp : SessionDesc)
  | iceCandidate (userId targetUserId : String) (candidate : IceCandidate)
deriving DecidableEq

/-- An envelope received from the signaling socket (`onmessage` payloads). -/
inductive InMsg
  | pong
  | existingUsers (users : List VoiceUser)
  | userJoined (userId : String) (username : Option String)
  | userLeft (userId : String)
  | offer (userId : String) (username : Option String) (sdp : SessionDesc)
  | answer (userId : String) (sdp : SessionDesc)
  | iceCandidate (userId : String) (candidate : IceCandidate)
deriving DecidableEq

/-- The externally observable side effects of `leaveVoice`, in the order the
source performs them. -/
inductive TeardownEvent
  | clearPingInterval
  | stopLocalTracks
  | closeSocket
  | closePeer (userId : String)
deriving DecidableEq

def CoordState.socketIsOpen (st : CoordState) : Bool := st.socket = some true

/-! ### Coordinator operations, translated from the source hook -/

/-- `handleUserLeft`: close and remove the peer connection, drop the stream,
drop the user from `connectedUsers`. -/
def handleUserLeft (st : CoordState) (id : String) : CoordState :=
  { st with
    peersRef := eraseKey id st.peersRef
    peers := eraseKey id st.peers
    connectedUsers := st.connectedUsers.filter (fun u => u.userId ≠ id) }

/-- `handleAnswer`: unknown sender is ignored; a link whose signaling state is
already `stable` drops the duplicate; otherwise `setRemoteDescription` is
attempted and any exception is caught (leaving the state unchanged). -/
def handleAnswer (st : CoordState) (id : String) (ans : SessionDesc) : CoordState :=
  match lookupKey id st.peersRef with
  | none => st
  | some pc =>
    if pc.signaling = .stable then st
    else
      match pc.setRemoteDescription ans with
      | .ok pc1 => { st with peersRef := upsert id pc1 st.peersRef }
      | .error _ => st

/-- `handleIceCandidate`: the candidate is applied only when the peer
connection exists and already has a remote description; otherwise nothing
happens (there is no queue).  Exceptions are caught. -/
def handleIceCandidate (st : CoordState) (id : String) (c : IceCandidate) : CoordState :=
  match lookupKey id st.peersRef with
  | none => st
  | some pc =>
    if pc.remoteDesc.isSome then
      match pc.addIceCandidate c with
      | .ok pc1 => { st with peersRef := upsert id pc1 st.peersRef }
      | .error _ => st
    else st

/-- `createPeerConnection`: if a connection for the target exists and there is
no incoming offer, healthy or still-offering connections are kept (early
return); otherwise any existing connection is closed and replaced by a fresh
one, which then either creates and sends an offer (initiator) or applies the
incoming offer and sends an answer.  The `try` block's exceptions are caught:
on failure the partially negotiated connection stays in the table. -/
def createPeerConnection (st : CoordState) (targetUserId : String) (isInitiator : Bool)
    (incomingOffer : Option SessionDesc) : CoordState × List OutMsg :=
  let existingPC := lookupKey targetUserId st.peersRef
  let keep : Bool :=
    match existingPC, incomingOffer with
    | some pc, none =>
      (pc.iceConn = .connected ∨ pc.iceConn = .checking ∨ pc.iceConn = .completed)
        ∨ pc.signaling = .haveLocalOffer
    | _, _ => false
  if keep then (st, [])
  else
    let st1 :=
      match existingPC with
      | some _ => { st with peersRef := eraseKey targetUserId st.peersRef }
      | none => st
    let pc := PC.fresh
    let st2 := { st1 with peersRef := upsert targetUserId pc st1.peersRef }
    if isInitiator then
      let offer := PC.createOffer
      match pc.setLocalDescription offer with
      | .ok pc1 =>
        ({ st2 with peersRef := upsert targetUserId pc1 st2.peersRef },
         if st.socketIsOpen then [.offer st.userId targetUserId offer] else [])
      | .error _ => (st2, [])
    else
      match incomingOffer with
      | some off =>
        match pc.setRemoteDescription off with
        | .ok pc1 =>
          let answer := PC.createAnswer
          match pc1.setLocalDescription answer with
          | .ok pc2 =>
            ({ st2 with peersRef := upsert targetUserId pc2 st2.peersRef },
             if st.socketIsOpen then [.answer st.userId targetUserId answer] else [])
          | .error _ => ({ st2 with peersRef := upsert targetUserId pc1 st2.peersRef }, [])
        | .error _ => (st2, [])
      | none => (st2, [])

/-- The `isDead` test of `syncUsers`: the connection is missing, or its ICE
state is `failed`, `disconnected` or `closed`. -/
def deadPC : Option PC → Bool
  | none => true
  | some pc => pc.iceConn = .failed ∨ pc.iceConn = .disconnected ∨ pc.iceConn = .closed

/-- The body of the `serverUsers.forEach` loop of `syncUsers` (the hook's
`userId` is captured by the closure as `uid`). -/
def syncStep (uid : String) (acc : CoordState × List OutMsg) (u : VoiceUser) :
    CoordState × List OutMsg :=
  if u.userId = uid then acc
  else
    if deadPC (lookupKey u.userId acc.1.peersRef) && strLt uid u.userId then
      let r := createPeerConnection acc.1 u.userId true none
      (r.1, acc.2 ++ r.2)
    else acc

/-- `syncUsers` (poll-based reconciliation): append server-reported users not
already known, then for every remote user whose connection is missing or dead
initiate a healing offer — but only when the local id sorts lower. -/
def syncUsers (st : CoordState) (serverUsers : List VoiceUser) : CoordState × List OutMsg :=
  let st1 :=
    { st with connectedUsers := st.connectedUsers ++
        serverUsers.filter (fun u => ¬ st.connectedUsers.any (fun v => v.userId = u.userId)) }
  serverUsers.foldl (syncStep st.userId) (st1, [])

/-- The `existing-users` branch of `onmessage`: merge the snapshot into
`connectedUsers`, then initiate toward every listed user with a larger id. -/
def handleExistingUsers (st : CoordState) (others : List VoiceUser) : CoordState × List OutMsg :=
  let st1 :=
    { st with connectedUsers := st.connectedUsers ++
        others.filter (fun u => ¬ st.connectedUsers.any (fun v => v.userId = u.userId)) }
  others.foldl
    (fun acc u =>
      if strLt st.userId u.userId then
        let r := createPeerConnection acc.1 u.userId true none
        (r.1, acc.2 ++ r.2)
      else acc)
    (st1, [])

/-- The socket `onmessage` dispatcher. -/
def handleMessage (st : CoordState) (msg : InMsg) : CoordState × List OutMsg :=
  match msg with
  | .pong => (st, [])
  | .existingUsers users => handleExistingUsers st users
  | .userJoined senderId username =>
    if senderId = st.userId then (st, [])
    else
      let st1 :=
        if st.connectedUsers.any (fun u => u.userId = senderId) then st
        else { st with connectedUsers :=
          st.connectedUsers ++ [⟨senderId, username.getD "Unknown"⟩] }
      if strLt st.userId senderId then createPeerConnection st1 senderId true none
      else (st1, [])
  | .userLeft senderId =>
    if senderId = st.userId then (st, []) else (handleUserLeft st senderId, [])
  | .offer senderId username sdp =>
    if senderId = st.userId then (st, [])
    else
      let st1 :=
        if st.connectedUsers.any (fun u => u.userId = senderId) then st
        else { st with connectedUsers :=
          st.connectedUsers ++ [⟨senderId, username.getD "Unknown"⟩] }
      createPeerConnection st1 senderId false (some sdp)
  | .answer senderId sdp =>
    if senderId = st.userId then (st, []) else (handleAnswer st senderId sdp, [])
  | .iceCandidate senderId c =>
    if senderId = st.userId then (st, []) else (handleIceCandidate st senderId c, [])

/-- `leaveVoice`: clear the ping interval, stop the local capture stream,
close the socket, close every peer connection — in that source order — then
reset all state. -/
def leaveVoice (st : CoordState) : CoordState × List TeardownEvent :=
  let trace :=
    (if st.pingInterval then [TeardownEvent.clearPingInterval] else [])
      ++ (if st.localStream.isSome then [TeardownEvent.stopLocalTracks] else [])
      ++ (if st.socket.isSome then [TeardownEvent.closeSocket] else [])
      ++ st.peersRef.map (fun p => TeardownEvent.closePeer p.1)
  ({ st with
      pingInterval := false
      localStream := none
      socket := none
      peersRef := []
      peers := []
      connectedUsers := []
      isConnected := false
      isMuted := false },
   trace)

/-- A coordinator state as produced by `joinVoice` + socket `onopen`:
microphone captured, socket open, ping interval armed, the local user in
`connectedUsers`, no peer links yet. -/
def initState (uid : String) : CoordState :=
  { userId := uid
    peersRef := []
    peers := []
    connectedUsers := [⟨uid, uid⟩]
    isConnected := true
    isMuted := false
    localStream := some ⟨0⟩
    socket := some true
    pingInterval := true }

def OutMsg.isOfferTo (m : OutMsg) (src dst : String) : Bool :=
  match m with
  | .offer s d _ => s = src ∧ d = dst
  | _ => false

/-- Does this batch of outgoing envelopes contain an offer from `src` to
`dst`? -/
def sendsOfferTo (msgs : List OutMsg) (src dst : String) : Bool :=
  msgs.any (fun m => m.isOfferTo src dst)

def TeardownEvent.isClosePeer : TeardownEvent → Bool
  | .closePeer _ => true
  | _ => false

/-- Does the trace contain a socket-close event? -/
def containsSocketClose : List TeardownEvent → Bool
  | [] => false
  | .closeSocket :: _ => true
  | _ :: rest => containsSocketClose rest

/-- No socket-close event occurs after the first peer-close event. -/
def noSocketCloseAfterPeerClose : List TeardownEvent → Bool
  | [] => true
  | .closePeer _ :: rest => !containsSocketClose rest
  | _ :: rest => noSocketCloseAfterPeerClose rest

/-- Does the trace contain a stop-local-tracks event? -/
def containsStopTracks : List TeardownEvent → Bool
  | [] => false
  | .stopLocalTracks :: _ => true
  | _ :: rest => containsStopTracks rest

/-- No stop-local-tracks event occurs after the first socket-close event:
the hardware capture is released before the control connection closes. -/
def noStopTracksAfterSocketClose : List TeardownEvent → Bool
  | [] => true
  | .closeSocket :: rest => !containsStopTracks rest
  | _ :: rest => noStopTracksAfterSocketClose rest

/-- Every peer-close event occurs before the first socket-close event
(the ordering the specification claims for teardown). -/
def peersClosedBeforeSocket : List TeardownEvent → Bool
  | [] => true
  | .closeSocket :: rest => rest.all (fun e => !e.isClosePeer)
  | _ :: rest => peersClosedBeforeSocket rest

/-! ### Room Registry (server side) -/

/-- One live control connection registered for a room: identity plus the
transport-level connection it arrived on. -/
structure RegConn where
  participantId : String
  displayName : String
  connId : Nat
deriving DecidableEq

inductive LeaveReason
  | left
  | timeout
  | superseded
deriving DecidableEq

/-- An envelope the registry/relay emits towards a specific connection. -/
inductive RegEnvelope
  | leave (targetConn : Nat) (participantId : String) (reason : LeaveReason)
deriving DecidableEq

structure Registry where
  rooms : List (String × List RegConn)
deriving DecidableEq

def Registry.members (reg : Registry) (roomId : String) : List RegConn :=
  (lookupKey roomId reg.rooms).getD []

/-- Modelled from the spec: the signaling-relay/Room-Registry backend is not
present under `src/` (only its browser-side callers are), so `join` follows
§4.1 of the spec: add the participant; if the identity is already present the
previous entry is evicted first and the eviction is reported to the evicted
connection as a `leave` envelope with reason `superseded`; the resulting
member list is returned. -/
def Registry.join (reg : Registry) (roomId : String) (p : RegConn) :
    Registry × List RegConn × List RegEnvelope :=
  let members := reg.members roomId
  let evicted := members.filter (fun c => c.participantId = p.participantId)
  let kept := members.filter (fun c => ¬ c.participantId = p.participantId)
  let members1 := kept ++ [p]
  (⟨upsert roomId members1 reg.rooms⟩, members1,
   evicted.map (fun c => RegEnvelope.leave c.connId c.participantId .superseded))

end VoiceSignaling

namespace VoiceSignaling

/-! ## Claims -/

/-- **C9.** Handling an `answer` or `ice-candidate` envelope whose sender has
no entry in the local peer table is a total no-op: the handler returns the
state unchanged (in particular the peer table, the peer-stream map and the
connected-user list are untouched) and, being total, raises no exception. -/
theorem c9_unknown_sender_noop (st : CoordState) (id : String) (ans : SessionDesc)
    (c : IceCandidate) (h : lookupKey id st.peersRef = none) :
    handleAnswer st id ans = st ∧ handleIceCandidate st id c = st := by
  constructor
  · unfold handleAnswer
    rw [h]
  · unfold handleIceCandidate
    rw [h]

/-- Witness for C9 at a concrete reachable state. -/
theorem c9_unknown_sender_noop_witness :
    handleAnswer (initState "alice") "bob" ⟨.answer, "x"⟩ = initState "alice"
      ∧ handleIceCandidate (initState "alice") "bob" ⟨"cand"⟩ = initState "alice" :=
  c9_unknown_sender_noop (initState "alice") "bob" ⟨.answer, "x"⟩ ⟨"cand"⟩ rfl

/-- **C10.** `leaveVoice` is safe from any state: after one call the peer
table and peer-stream map are empty, the connected-user list is empty and
`isConnected`/`isMuted` are false; a second call is a no-op that performs no
further side effects.  The function is total, so no exception is raised. -/
theorem c10_leaveVoice_idempotent (st : CoordState) :
    (leaveVoice st).1.peersRef = [] ∧ (leaveVoice st).1.peers = []
      ∧ (leaveVoice st).1.connectedUsers = []
      ∧ (leaveVoice st).1.isConnected = false ∧ (leaveVoice st).1.isMuted = false
      ∧ leaveVoice (leaveVoice st).1 = ((leaveVoice st).1, []) :=
  ⟨rfl, rfl, rfl, rfl, rfl, rfl⟩

/-- **C6.** (spec-modelled) Joining twice with the same `(roomId,
participantId)` leaves exactly one live connection for that identity — the
second one — and the first connection is reported evicted by a `leave`
envelope with reason `superseded`. -/
theorem c6_supersession (reg : Registry) (roomId : String) (p q : RegConn)
    (h : q.participantId = p.participantId) :
    ((((reg.join roomId q).1.join roomId p).1.members roomId).filter
        (fun c => c.participantId = p.participantId)) = [p]
      ∧ RegEnvelope.leave q.connId q.participantId .superseded
          ∈ ((reg.join roomId q).1.join roomId p).2.2 := by
  have hm : ((reg.join roomId q).1).members roomId =
      (reg.members roomId).filter (fun c => ¬ c.participantId = q.participantId) ++ [q] := by
    simp [Registry.join, Registry.members, lookupKey_upsert_self]
  constructor
  · have hm2 : (((reg.join roomId q).1.join roomId p).1).members roomId =
        (((reg.join roomId q).1).members roomId).filter
            (fun c => ¬ c.participantId = p.participantId) ++ [p] := by
      simp [Registry.join, Registry.members, lookupKey_upsert_self]
    rw [hm2, hm]
    simp only [List.filter_append, List.filter_filter]
    have h1 : List.filter
        (fun a => decide (a.participantId = p.participantId) &&
          (decide ¬a.participantId = p.participantId && decide ¬a.participantId = q.participantId))
        (reg.members roomId) = [] := by
      rw [List.filter_eq_nil_iff]
      intro a _ hc
      simp only [Bool.and_eq_true, decide_eq_true_eq] at hc
      exact hc.2.1 hc.1
    rw [h1]
    simp [h]
  · have hq : q ∈ (((reg.join roomId q).1).members roomId).filter
        (fun c => c.participantId = p.participantId) := by
      rw [hm]
      exact List.mem_filter.mpr ⟨List.mem_append_right _ (List.mem_singleton.mpr rfl),
        by simp [h]⟩
    exact List.mem_map.mpr ⟨q, hq, rfl⟩

/-- Witness for C6: two connections for participant `"alice"` in room
`"r1"`; the first (connection 1) is evicted with reason `superseded`. -/
theorem c6_supersession_witness :
    RegEnvelope.leave 1 "alice" .superseded
      ∈ (((Registry.mk []).join "r1" ⟨"alice", "A", 1⟩).1.join "r1" ⟨"alice", "A", 2⟩).2.2 :=
  (c6_supersession (Registry.mk []) "r1" ⟨"alice", "A", 2⟩ ⟨"alice", "A", 1⟩ rfl).2

/-- A successful `setRemoteDescription` either lands the connection in the
`stable` signaling state, or re-applying the same description reproduces the
same connection unchanged. -/
theorem setRemoteDescription_ok_cases (pc pc1 : PC) (d : SessionDesc)
    (h : pc.setRemoteDescription d = .ok pc1) :
    pc1.signaling = .stable ∨ pc1.setRemoteDescription d = .ok pc1 := by
  obtain ⟨ty, s⟩ := d
  obtain ⟨sg, ic, ld, rd, ac⟩ := pc
  cases ty <;> cases sg <;> simp [PC.setRemoteDescription] at h ⊢ <;>
    first
      | (left; rw [← h]; done)
      | (right; rw [← h])

/-- Unfolding lemma for `handleAnswer` when the sender's connection is in the
table. -/
theorem handleAnswer_eq_some (st : CoordState) (id : String) (ans : SessionDesc) (pc : PC)
    (h : lookupKey id st.peersRef = some pc) :
    handleAnswer st id ans =
      (if pc.signaling = .stable then st
       else
         match pc.setRemoteDescription ans with
         | .ok pc1 => { st with peersRef := upsert id pc1 st.peersRef }
         | .error _ => st) := by
  unfold handleAnswer
  rw [h]

/-- **C3.** A duplicate/stale `answer` is a no-op: when the link is already
in the `stable` signaling state (which is how both a `connected` and an
`idle` link present to `handleAnswer`) the envelope is explicitly dropped and
the state is unchanged; moreover applying the same `answer` envelope twice
always yields the same state as applying it once.  `handleAnswer` is total
(the source catches transport exceptions), so no exception is raised. -/
theorem c3_duplicate_answer_idempotent (st : CoordState) (id : String) (ans : SessionDesc) :
    ((lookupKey id st.peersRef).map PC.signaling = some SignalingState.stable →
        handleAnswer st id ans = st)
      ∧ handleAnswer (handleAnswer st id ans) id ans = handleAnswer st id ans := by
  constructor
  · intro h
    match hl : lookupKey id st.peersRef with
    | none => rw [hl] at h; simp at h
    | some pc =>
      rw [hl] at h
      simp only [Option.map_some'] at h
      have hs : pc.signaling = .stable := Option.some.inj h
      rw [handleAnswer_eq_some st id ans pc hl, if_pos hs]
  · cases hl : lookupKey id st.peersRef with
    | none =>
      have e : handleAnswer st id ans = st := by unfold handleAnswer; rw [hl]
      rw [e, e]
    | some pc =>
      by_cases hs : pc.signaling = SignalingState.stable
      · have e : handleAnswer st id ans = st := by
          rw [handleAnswer_eq_some st id ans pc hl, if_pos hs]
        rw [e, e]
      · cases hr : pc.setRemoteDescription ans with
        | error msg =>
          have e : handleAnswer st id ans = st := by
            rw [handleAnswer_eq_some st id ans pc hl, if_neg hs, hr]
          rw [e, e]
        | ok pc1 =>
          have e : handleAnswer st id ans =
              { st with peersRef := upsert id pc1 st.peersRef } := by
            rw [handleAnswer_eq_some st id ans pc hl, if_neg hs, hr]
          rw [e]
          have hl1 : lookupKey id ({ st with peersRef := upsert id pc1 st.peersRef
            } : CoordState).peersRef = some pc1 := lookupKey_upsert_self id pc1 st.peersRef
          rcases setRemoteDescription_ok_cases pc pc1 ans hr with hstable | hfix
          · rw [handleAnswer_eq_some _ id ans pc1 hl1, if_pos hstable]
          · by_cases h1 : pc1.signaling = SignalingState.stable
            · rw [handleAnswer_eq_some _ id ans pc1 hl1, if_pos h1]
            · rw [handleAnswer_eq_some _ id ans pc1 hl1, if_neg h1, hfix]
              show ({ st with peersRef := upsert id pc1 (upsert id pc1 st.peersRef) } : CoordState)
                = { st with peersRef := upsert id pc1 st.peersRef }
              rw [upsert_upsert]

/-- Witness for C3: a link in the `stable` state drops the duplicate
answer. -/
theorem c3_duplicate_answer_idempotent_witness :
    handleAnswer
        { initState "a" with peersRef := [("b", { PC.fresh with signaling := .stable })] }
        "b" ⟨.answer, "x"⟩
      = { initState "a" with peersRef := [("b", { PC.fresh with signaling := .stable })] } :=
  (c3_duplicate_answer_idempotent _ "b" ⟨.answer, "x"⟩).1 rfl

/-- **C1.** Both sides of a pair of distinct participants compute the same
initiator for their peer link — the one whose id is lexicographically
smaller — and they do so identically in all three paths by which a peer can
be learned: the `existing-users` room snapshot, the `user-joined`
notification, and the poll-based healing path (`syncUsers`, shown here for a
dead/absent link).  Each side sends an offer exactly when its own id sorts
lower, so exactly one side of the pair initiates, independent of arrival
order. -/
theorem c1_deterministic_initiator (a b : String) (h : a ≠ b) :
    (sendsOfferTo (handleMessage (initState a) (.existingUsers [⟨b, b⟩])).2 a b = strLt a b)
      ∧ (sendsOfferTo (handleMessage (initState a) (.userJoined b (some b))).2 a b = strLt a b)
      ∧ (sendsOfferTo (syncUsers (initState a) [⟨b, b⟩]).2 a b = strLt a b)
      ∧ (sendsOfferTo (handleMessage (initState b) (.existingUsers [⟨a, a⟩])).2 b a = strLt b a)
      ∧ (sendsOfferTo (handleMessage (initState b) (.userJoined a (some a))).2 b a = strLt b a)
      ∧ (sendsOfferTo (syncUsers (initState b) [⟨a, a⟩]).2 b a = strLt b a)
      ∧ strLt a b = !strLt b a
      ∧ (strLt a b = true ↔ a < b)
      ∧ (if strLt a b then a else b) = (if strLt b a then b else a)
      ∧ (if strLt a b then a else b) ≤ a ∧ (if strLt a b then a else b) ≤ b := by
  have hba : b ≠ a := Ne.symm h
  have hcases : (strLt a b = true ∧ strLt b a = false ∧ a < b)
      ∨ (strLt a b = false ∧ strLt b a = true ∧ b < a) := by
    rcases lt_trichotomy a b with hlt | heq | hgt
    · refine Or.inl ⟨(strLt_iff a b).mpr hlt, ?_, hlt⟩
      cases hb2 : strLt b a
      · rfl
      · exact absurd ((strLt_iff b a).mp hb2) (lt_asymm hlt)
    · exact absurd heq h
    · refine Or.inr ⟨?_, (strLt_iff b a).mpr hgt, hgt⟩
      cases hb2 : strLt a b
      · rfl
      · exact absurd ((strLt_iff a b).mp hb2) (lt_asymm hgt)
  have htri : strLt a b = !strLt b a := by
    rcases hcases with ⟨h1, h2, _⟩ | ⟨h1, h2, _⟩ <;> rw [h1, h2] <;> rfl
  refine ⟨?_, ?_, ?_, ?_, ?_, ?_, htri, strLt_iff a b, ?_, ?_, ?_⟩
  · rcases hcases with ⟨h1, h2, h3⟩ | ⟨h1, h2, h3⟩ <;>
      simp [handleMessage, handleExistingUsers, createPeerConnection, initState, lookupKey,
        upsert, PC.fresh, PC.createOffer, PC.setLocalDescription, CoordState.socketIsOpen,
        sendsOfferTo, OutMsg.isOfferTo, h1, h2, h, hba]
  · rcases hcases with ⟨h1, h2, h3⟩ | ⟨h1, h2, h3⟩ <;>
      simp [handleMessage, createPeerConnection, initState, lookupKey,
        upsert, PC.fresh, PC.createOffer, PC.setLocalDescription, CoordState.socketIsOpen,
        sendsOfferTo, OutMsg.isOfferTo, h1, h2, h, hba]
  · rcases hcases with ⟨h1, h2, h3⟩ | ⟨h1, h2, h3⟩ <;>
      simp [syncUsers, syncStep, createPeerConnection, deadPC, initState, lookupKey,
        upsert, PC.fresh, PC.createOffer, PC.setLocalDescription, CoordState.socketIsOpen,
        sendsOfferTo, OutMsg.isOfferTo, h1, h2, h, hba]
  · rcases hcases with ⟨h1, h2, h3⟩ | ⟨h1, h2, h3⟩ <;>
      simp [handleMessage, handleExistingUsers, createPeerConnection, initState, lookupKey,
        upsert, PC.fresh, PC.createOffer, PC.setLocalDescription, CoordState.socketIsOpen,
        sendsOfferTo, OutMsg.isOfferTo, h1, h2, h, hba]
  · rcases hcases with ⟨h1, h2, h3⟩ | ⟨h1, h2, h3⟩ <;>
      simp [handleMessage, createPeerConnection, initState, lookupKey,
        upsert, PC.fresh, PC.createOffer, PC.setLocalDescription, CoordState.socketIsOpen,
        sendsOfferTo, OutMsg.isOfferTo, h1, h2, h, hba]
  · rcases hcases with ⟨h1, h2, h3⟩ | ⟨h1, h2, h3⟩ <;>
      simp [syncUsers, syncStep, createPeerConnection, deadPC, initState, lookupKey,
        upsert, PC.fresh, PC.createOffer, PC.setLocalDescription, CoordState.socketIsOpen,
        sendsOfferTo, OutMsg.isOfferTo, h1, h2, h, hba]
  · rcases hcases with ⟨h1, h2, _⟩ | ⟨h1, h2, _⟩ <;> simp [h1, h2]
  · rcases hcases with ⟨h1, _, h3⟩ | ⟨h1, _, h3⟩ <;> simp [h1, le_of_lt h3]
  · rcases hcases with ⟨h1, _, h3⟩ | ⟨h1, _, h3⟩ <;> simp [h1, le_of_lt h3]

/-- Witness for C1 with participants `"alice"` and `"bob"`. -/
theorem c1_deterministic_initiator_witness :
    sendsOfferTo (handleMessage (initState "alice") (.existingUsers [⟨"bob", "bob"⟩])).2
        "alice" "bob" = strLt "alice" "bob" :=
  (c1_deterministic_initiator "alice" "bob" (by decide)).1

/-! ### Concrete states used by the counterexamples -/

/-- The peer connection of a side that has sent an offer and is awaiting the
answer (the `offering` link state of the spec). -/
def pcOffering : PC :=
  { signaling := .haveLocalOffer, iceConn := .new, localDesc := some PC.createOffer,
    remoteDesc := none, appliedCandidates := [] }

/-- A fully negotiated, media-connected peer connection. -/
def pcConnected : PC :=
  { signaling := .stable, iceConn := .connected, localDesc := some PC.createOffer,
    remoteDesc := some ⟨.answer, "sdp"⟩, appliedCandidates := [] }

/-- Participant `"a"` (the deterministic initiator towards `"b"`), having
sent an offer to `"b"` and currently awaiting the answer. -/
def stOfferingA : CoordState :=
  { userId := "a"
    peersRef := [("b", pcOffering)]
    peers := []
    connectedUsers := [⟨"a", "a"⟩, ⟨"b", "b"⟩]
    isConnected := true
    isMuted := false
    localStream := some ⟨0⟩
    socket := some true
    pingInterval := true }

/-- Participant `"a"` with an established, connected link to `"b"`. -/
def stConnectedA : CoordState :=
  { userId := "a"
    peersRef := [("b", pcConnected)]
    peers := []
    connectedUsers := [⟨"a", "a"⟩, ⟨"b", "b"⟩]
    isConnected := true
    isMuted := false
    localStream := some ⟨0⟩
    socket := some true
    pingInterval := true }

/-- Participant `"a"` whose local membership still lists `"b"`, with no peer
connection for `"b"`. -/
def stStaleA : CoordState :=
  { userId := "a"
    peersRef := []
    peers := []
    connectedUsers := [⟨"a", "a"⟩, ⟨"b", "b"⟩]
    isConnected := true
    isMuted := false
    localStream := some ⟨0⟩
    socket := some true
    pingInterval := true }

/-- **C2, counterexample.** `"a" < "b"`, so `"a"` is the deterministic
initiator, and its link to `"b"` is in the offering state — yet on receiving
`"b"`'s offer, `"a"` (the side that IS the deterministic initiator) also
discards its own pending offer: the offering connection is replaced by a
fresh one that applies the incoming offer and sends back an answer.  This
refutes the claim that only the non-initiator demotes and that the pair
converges to exactly one active negotiation direction (here both sides would
answer, and zero offers survive). -/
theorem c2_glare_counterexample :
    strLt "a" "b" = true
      ∧ (lookupKey "b" stOfferingA.peersRef).map PC.signaling = some .haveLocalOffer
      ∧ (lookupKey "b"
            (handleMessage stOfferingA (.offer "b" (some "b") ⟨.offer, "sdpB"⟩)).1.peersRef).map
          PC.signaling = some .stable
      ∧ (lookupKey "b"
            (handleMessage stOfferingA (.offer "b" (some "b") ⟨.offer, "sdpB"⟩)).1.peersRef).map
          PC.remoteDesc = some (some ⟨.offer, "sdpB"⟩)
      ∧ (handleMessage stOfferingA (.offer "b" (some "b") ⟨.offer, "sdpB"⟩)).2
          = [.answer "a" "b" PC.createAnswer] := by
  decide

/-- **C4, counterexample.** An `ice_candidate` that arrives while the link to
`"b"` has no remote description yet is NOT queued: the handler leaves the
state completely unchanged, and after the answer later installs the remote
description the early candidate has not been applied (and never will be) —
refuting "queued per-link and flushed in arrival order". -/
theorem c4_candidate_counterexample :
    handleIceCandidate stOfferingA "b" ⟨"cand1"⟩ = stOfferingA
      ∧ (lookupKey "b"
            (handleAnswer (handleIceCandidate stOfferingA "b" ⟨"cand1"⟩) "b"
              ⟨.answer, "ansB"⟩).peersRef).map PC.appliedCandidates = some []
      ∧ (lookupKey "b"
            (handleAnswer (handleIceCandidate stOfferingA "b" ⟨"cand1"⟩) "b"
              ⟨.answer, "ansB"⟩).peersRef).map PC.remoteDesc
          = some (some ⟨.answer, "ansB"⟩) := by
  decide

/-- **C5, counterexample.** `"a"`'s local membership still lists `"b"`, but
the authoritative set is just `["a"]`.  One full poll reconciliation
(`syncUsers`) leaves the state unchanged: `"b"` is not removed (and since the
state is a fixpoint, no number of further polls removes it) — refuting
convergence to the authoritative set. -/
theorem c5_convergence_counterexample :
    syncUsers stStaleA [⟨"a", "a"⟩] = (stStaleA, [])
      ∧ (⟨"b", "b"⟩ : VoiceUser) ∈ stStaleA.connectedUsers := by
  decide

/-- **C7, counterexample.** A push notification (`user-left b`) removes `"b"`
from the local membership, after which a stale poll snapshot still listing
`"b"` is applied unconditionally: `"b"` is re-added and a healing offer is
even initiated.  There is no room-version counter and no recency comparison,
so older poll data does overwrite newer push-derived state. -/
theorem c7_version_counterexample :
    ((handleMessage stConnectedA (.userLeft "b")).1.connectedUsers = [⟨"a", "a"⟩])
      ∧ ((syncUsers (handleMessage stConnectedA (.userLeft "b")).1 [⟨"b", "b"⟩]).1.connectedUsers
          = [⟨"a", "a"⟩, ⟨"b", "b"⟩])
      ∧ sendsOfferTo
          (syncUsers (handleMessage stConnectedA (.userLeft "b")).1 [⟨"b", "b"⟩]).2 "a" "b"
          = true := by
  decide

/-- **C8, counterexample.** On local shutdown from a fully active state the
teardown order is: clear ping interval, stop the local capture tracks, close
the control socket, and only then close the peer link — the control
connection is closed BEFORE the peer link's media transport is released,
refuting the claimed order. -/
theorem c8_order_counterexample :
    (leaveVoice stOfferingA).2
        = [.clearPingInterval, .stopLocalTracks, .closeSocket, .closePeer "b"]
      ∧ peersClosedBeforeSocket (leaveVoice stOfferingA).2 = false := by
  decide

/-! ### Amended statements for the corrected claims -/

/-- Unfolding lemma for `handleIceCandidate` when the sender's connection is
in the table. -/
theorem handleIceCandidate_eq_some (st : CoordState) (id : String) (c : IceCandidate) (pc : PC)
    (h : lookupKey id st.peersRef = some pc) :
    handleIceCandidate st id c =
      (if pc.remoteDesc.isSome then
        match pc.addIceCandidate c with
        | .ok pc1 => { st with peersRef := upsert id pc1 st.peersRef }
        | .error _ => st
       else st) := by
  unfold handleIceCandidate
  rw [h]

/-- **C2, amended.** When a side receives an offer while its link to the
sender is in the offering state, it discards its own pending offer and
answers the incoming one REGARDLESS of whether it is the deterministic
initiator (role demotion happens on both sides): the pending connection is
replaced by a fresh one that has applied the incoming offer and produced an
answer, exactly one answer envelope is sent back, and the side keeps exactly
one peer link for the sender. -/
theorem c2_glare_both_sides_demote (st : CoordState) (senderId : String) (uname : Option String)
    (sdp : String) (pc : PC) (hne : senderId ≠ st.userId)
    (hmem : st.connectedUsers.any (fun u => u.userId = senderId) = true)
    (hpc : lookupKey senderId st.peersRef = some pc)
    (hoff : pc.signaling = .haveLocalOffer)
    (hsock : st.socket = some true) :
    lookupKey senderId (handleMessage st (.offer senderId uname ⟨.offer, sdp⟩)).1.peersRef
        = some { signaling := .stable, iceConn := .new, localDesc := some PC.createAnswer,
                 remoteDesc := some ⟨.offer, sdp⟩, appliedCandidates := [] }
      ∧ (handleMessage st (.offer senderId uname ⟨.offer, sdp⟩)).2
          = [.answer st.userId senderId PC.createAnswer]
      ∧ ((st.peersRef.map Prod.fst).Nodup →
          ((handleMessage st (.offer senderId uname ⟨.offer, sdp⟩)).1.peersRef.filter
              (fun p => p.1 = senderId)).length = 1
            ∧ ((handleMessage st (.offer senderId uname ⟨.offer, sdp⟩)).1.peersRef.map
                Prod.fst).Nodup) := by
  have hoffKept : pc.signaling = .haveLocalOffer := hoff
  have hr : handleMessage st (.offer senderId uname ⟨.offer, sdp⟩)
      = ({ st with peersRef :=
            (upsert senderId
              ({ signaling := .stable, iceConn := .new, localDesc := some PC.createAnswer,
                 remoteDesc := some ⟨.offer, sdp⟩, appliedCandidates := [] } : PC)
              (upsert senderId PC.fresh (eraseKey senderId st.peersRef))) },
         [.answer st.userId senderId PC.createAnswer]) := by
    simp [handleMessage, hne, hmem, createPeerConnection, hpc, PC.fresh,
      PC.setRemoteDescription, PC.createAnswer, PC.createOffer, PC.setLocalDescription,
      CoordState.socketIsOpen, hsock]
  refine ⟨?_, ?_, ?_⟩
  · rw [hr]
    exact lookupKey_upsert_self _ _ _
  · rw [hr]
  · intro nd
    rw [hr]
    have h1 : senderId ∉ (eraseKey senderId st.peersRef).map Prod.fst :=
      not_mem_keys_eraseKey _ _ nd
    have h2 : upsert senderId
        ({ signaling := .stable, iceConn := .new, localDesc := some PC.createAnswer,
           remoteDesc := some ⟨.offer, sdp⟩, appliedCandidates := [] } : PC)
        (upsert senderId PC.fresh (eraseKey senderId st.peersRef))
      = eraseKey senderId st.peersRef
          ++ [(senderId,
               { signaling := .stable, iceConn := .new, localDesc := some PC.createAnswer,
                 remoteDesc := some ⟨.offer, sdp⟩, appliedCandidates := [] })] := by
      rw [upsert_upsert]
      exact upsert_of_not_mem_keys _ _ _ h1
    have hnil : (eraseKey senderId st.peersRef).filter (fun p => p.1 = senderId) = [] := by
      rw [List.filter_eq_nil_iff]
      intro p hp hc
      rw [decide_eq_true_eq] at hc
      have hmemk : p.1 ∈ (eraseKey senderId st.peersRef).map Prod.fst :=
        List.mem_map_of_mem Prod.fst hp
      rw [hc] at hmemk
      exact h1 hmemk
    constructor
    · show (List.filter _ _).length = 1
      rw [h2, List.filter_append, hnil]
      simp
    · show (List.map Prod.fst _).Nodup
      rw [h2]
      simp only [List.map_append, List.map_cons, List.map_nil, List.nodup_append]
      exact ⟨nodup_keys_eraseKey _ _ nd, List.nodup_singleton _,
        by simpa [List.disjoint_singleton] using h1⟩

/-- Witness for the amended C2: participant `"a"` (the deterministic
initiator, link offering) receives `"b"`'s offer and answers it. -/
theorem c2_glare_both_sides_demote_witness :
    (handleMessage stOfferingA (.offer "b" (some "b") ⟨.offer, "x"⟩)).2
      = [.answer "a" "b" PC.createAnswer] :=
  (c2_glare_both_sides_demote stOfferingA "b" (some "b") "x" pcOffering (by decide)
    (by decide) rfl rfl rfl).2.1

/-- **C4, amended.** An `ice_candidate` arriving before the link has a
remote description is dropped, not queued: the handler is a no-op.  A
candidate arriving once the remote description is set (and the connection is
not closed) is applied immediately, appended in arrival order to the list of
applied candidates. -/
theorem c4_candidates_dropped_or_applied (st : CoordState) (id : String) (c : IceCandidate)
    (pc : PC) (hpc : lookupKey id st.peersRef = some pc) :
    (pc.remoteDesc = none → handleIceCandidate st id c = st)
      ∧ (pc.remoteDesc.isSome = true → pc.signaling ≠ .closed →
          lookupKey id (handleIceCandidate st id c).peersRef
            = some { pc with appliedCandidates := pc.appliedCandidates ++ [c] }) := by
  constructor
  · intro hrd
    rw [handleIceCandidate_eq_some st id c pc hpc, hrd]
    rfl
  · intro hrd hsg
    rw [handleIceCandidate_eq_some st id c pc hpc, if_pos hrd]
    unfold PC.addIceCandidate
    rw [if_neg hsg]
    exact lookupKey_upsert_self _ _ _

/-- Witness for the amended C4: a candidate arriving on a connected link is
applied immediately; one arriving on an offering link (no remote
description) is dropped. -/
theorem c4_candidates_dropped_or_applied_witness :
    handleIceCandidate stOfferingA "b" ⟨"early"⟩ = stOfferingA
      ∧ lookupKey "b" (handleIceCandidate stConnectedA "b" ⟨"late"⟩).peersRef
          = some { pcConnected with
                   appliedCandidates := pcConnected.appliedCandidates ++ [⟨"late"⟩] } :=
  ⟨(c4_candidates_dropped_or_applied stOfferingA "b" ⟨"early"⟩ pcOffering rfl).1 rfl,
   (c4_candidates_dropped_or_applied stConnectedA "b" ⟨"late"⟩ pcConnected rfl).2 rfl
     (by decide)⟩

/-- `createPeerConnection` never changes `connectedUsers`. -/
theorem createPeerConnection_connectedUsers (st : CoordState) (t : String) (i : Bool)
    (o : Option SessionDesc) :
    ((createPeerConnection st t i o).1).connectedUsers = st.connectedUsers := by
  unfold createPeerConnection
  dsimp only
  repeat' split
  all_goals rfl

/-- One poll-healing step never changes `connectedUsers`. -/
theorem syncStep_connectedUsers (uid : String) (acc : CoordState × List OutMsg)
    (u : VoiceUser) : ((syncStep uid acc u).1).connectedUsers = acc.1.connectedUsers := by
  unfold syncStep
  dsimp only
  repeat' split
  · rfl
  · exact createPeerConnection_connectedUsers _ _ _ _
  · rfl

theorem foldl_syncStep_connectedUsers (users : List VoiceUser) (uid : String)
    (init : CoordState × List OutMsg) :
    ((users.foldl (syncStep uid) init).1).connectedUsers = init.1.connectedUsers := by
  induction users generalizing init with
  | nil => rfl
  | cons hd tl ih => rw [List.foldl_cons, ih, syncStep_connectedUsers]

/-- What one poll reconciliation does to the membership list: it appends the
authoritative members not already present and removes nothing. -/
theorem syncUsers_connectedUsers (st : CoordState) (serverUsers : List VoiceUser) :
    (syncUsers st serverUsers).1.connectedUsers
      = st.connectedUsers
          ++ serverUsers.filter
              (fun u => ¬ st.connectedUsers.any (fun v => v.userId = u.userId)) := by
  unfold syncUsers
  rw [foldl_syncStep_connectedUsers]

/-- **C5, amended.** After one poll reconciliation the local membership list
contains every member of the authoritative set, but it is a superset, not an
exact copy: the previous local list survives as a prefix, so participants
absent from the authoritative set are never removed by the poll (removal
happens only through `user-left` push notifications). -/
theorem c5_superset_not_convergence (st : CoordState) (serverUsers : List VoiceUser) :
    (∃ tail, (syncUsers st serverUsers).1.connectedUsers = st.connectedUsers ++ tail)
      ∧ (∀ u ∈ serverUsers,
          ((syncUsers st serverUsers).1.connectedUsers.any
            (fun v => v.userId = u.userId)) = true) := by
  refine ⟨⟨_, syncUsers_connectedUsers st serverUsers⟩, ?_⟩
  intro u hu
  rw [syncUsers_connectedUsers, List.any_append]
  cases hmem : st.connectedUsers.any (fun v => v.userId = u.userId) with
  | true => rfl
  | false =>
    apply Bool.or_eq_true_iff.mpr
    right
    rw [List.any_eq_true]
    exact ⟨u, List.mem_filter.mpr ⟨hu, by simp [hmem]⟩, by simp⟩

/-- Witness for the amended C5: a poll listing the unknown `"c"` adds it to
the membership list. -/
theorem c5_superset_not_convergence_witness :
    ((syncUsers stStaleA [⟨"c", "c"⟩]).1.connectedUsers.any
      (fun v => v.userId = "c")) = true :=
  (c5_superset_not_convergence stStaleA [⟨"c", "c"⟩]).2 ⟨"c", "c"⟩ (List.mem_singleton.mpr rfl)

/-- **C7, amended.** There is no room-version counter and no recency check:
poll snapshots are applied unconditionally.  In particular, after a push
notification removes a participant, a stale poll snapshot still listing that
participant re-adds it to the local membership — older poll data does
overwrite newer push-derived state. -/
theorem c7_no_version_gating (st : CoordState) (b nm : String) (hb : b ≠ st.userId) :
    ((handleMessage st (.userLeft b)).1.connectedUsers.all (fun u => u.userId ≠ b)) = true
      ∧ ((syncUsers (handleMessage st (.userLeft b)).1 [⟨b, nm⟩]).1.connectedUsers.any
          (fun u => u.userId = b)) = true := by
  have hleft : (handleMessage st (.userLeft b)).1 = handleUserLeft st b := by
    simp [handleMessage, hb]
  have hall : ((handleUserLeft st b).connectedUsers.all (fun u => u.userId ≠ b)) = true := by
    rw [List.all_eq_true]
    intro u hu
    have := (List.mem_filter.mp hu).2
    simpa using this
  constructor
  · rw [hleft]
    exact hall
  · rw [hleft, syncUsers_connectedUsers, List.any_append]
    apply Bool.or_eq_true_iff.mpr
    right
    rw [List.any_eq_true]
    refine ⟨⟨b, nm⟩, List.mem_filter.mpr ⟨List.mem_singleton.mpr rfl, ?_⟩, by simp⟩
    rw [List.all_eq_true] at hall
    simp only [decide_eq_true_eq]
    intro hc
    rw [List.any_eq_true] at hc
    obtain ⟨v, hv, hvb⟩ := hc
    rw [decide_eq_true_eq] at hvb
    have := hall v hv
    rw [decide_eq_true_eq] at this
    exact this hvb

/-- Witness for the amended C7: after `user-left b`, a stale poll listing
`"b"` re-adds it. -/
theorem c7_no_version_gating_witness :
    ((syncUsers (handleMessage stConnectedA (.userLeft "b")).1 [⟨"b", "bn"⟩]).1.connectedUsers.any
      (fun u => u.userId = "b")) = true :=
  (c7_no_version_gating stConnectedA "b" "bn" (by decide)).2

theorem containsSocketClose_map_closePeer (l : List (String × PC)) :
    containsSocketClose (l.map (fun p => TeardownEvent.closePeer p.1)) = false := by
  induction l with
  | nil => rfl
  | cons hd tl ih => simpa [containsSocketClose] using ih

theorem containsStopTracks_map_closePeer (l : List (String × PC)) :
    containsStopTracks (l.map (fun p => TeardownEvent.closePeer p.1)) = false := by
  induction l with
  | nil => rfl
  | cons hd tl ih => simpa [containsStopTracks] using ih

theorem noSocketCloseAfterPeerClose_map_closePeer (l : List (String × PC)) :
    noSocketCloseAfterPeerClose (l.map (fun p => TeardownEvent.closePeer p.1)) = true := by
  induction l with
  | nil => rfl
  | cons hd tl ih =>
    simp [noSocketCloseAfterPeerClose, containsSocketClose_map_closePeer]

theorem noStopTracksAfterSocketClose_map_closePeer (l : List (String × PC)) :
    noStopTracksAfterSocketClose (l.map (fun p => TeardownEvent.closePeer p.1)) = true := by
  induction l with
  | nil => rfl
  | cons hd tl ih => simpa [noStopTracksAfterSocketClose] using ih

/-- **C8, amended.** On local shutdown the coordinator stops the local
capture stream FIRST (so no dangling hardware capture remains), then closes
the control connection, and closes its peer links last: no socket-close
event follows a peer-close event, no track-stop event follows the
socket-close event, the capture stream is stopped whenever one was held, and
the peer table ends empty. -/
theorem c8_capture_first_peers_last (st : CoordState) :
    noSocketCloseAfterPeerClose (leaveVoice st).2 = true
      ∧ noStopTracksAfterSocketClose (leaveVoice st).2 = true
      ∧ (st.localStream.isSome = true → TeardownEvent.stopLocalTracks ∈ (leaveVoice st).2)
      ∧ (leaveVoice st).1.peersRef = [] := by
  cases hp : st.pingInterval <;> cases hl : st.localStream <;> cases hs : st.socket <;>
    simp [leaveVoice, hp, hl, hs, noSocketCloseAfterPeerClose, noStopTracksAfterSocketClose,
      containsSocketClose_map_closePeer, containsStopTracks_map_closePeer,
      noSocketCloseAfterPeerClose_map_closePeer, noStopTracksAfterSocketClose_map_closePeer]

/-- Witness for the amended C8 at a fully active state. -/
theorem c8_capture_first_peers_last_witness :
    noSocketCloseAfterPeerClose (leaveVoice stOfferingA).2 = true
      ∧ TeardownEvent.stopLocalTracks ∈ (leaveVoice stOfferingA).2 :=
  ⟨(c8_capture_first_peers_last stOfferingA).1,
   (c8_capture_first_peers_last stOfferingA).2.2.1 rfl⟩

end VoiceSignaling
